import Mathlib

/-!
Verification of the `kincir` sandbox composition engine against its
natural-language specification.  The Rust sources (`kincir_bwrap`:
`fs_options.rs`, `namespace.rs`, `lib.rs`, `command.rs`; `kincir_api`:
`runner.rs`) are shallowly embedded below: every Rust function the claims
touch becomes an executable Lean definition with the same structure,
machine integers become `Nat`/`Int`, `OsString` becomes `String`,
`HashMap`/`HashSet` become association lists with the map/set insert
semantics, fallible code returns `Except`, and the filesystem / PATH
oracles of `verify_files_deps` / `verify_bin_deps` become explicit
function parameters.
-/

namespace Kincir

/-- Rust `format!("{p:o}")` on a `u64`: octal digits, no prefix, no leading
zero (except for the value 0 itself). -/
def octalStr (n : Nat) : String :=
  String.mk (Nat.toDigits 8 n)

/-! ## `kincir_bwrap/src/fs_options.rs` -/

/-- Expansion of `bwrap_flag!(@none: flag)`. -/
def flagNone (flag : String) : String :=
  "--" ++ flag

/-- Expansion of `bwrap_flag!(@ro: flag, b)`: `--ro-<flag>` when `b`,
otherwise `--<flag>`. -/
def flagRo (flag : String) (b : Bool) : String :=
  if b then "--ro-" ++ flag else "--" ++ flag

/-- Expansion of `bwrap_flag!(@try: flag, b)`: `--<flag>-try` when `b`,
otherwise `--<flag>`. -/
def flagTry (flag : String) (b : Bool) : String :=
  if b then "--" ++ flag ++ "-try" else "--" ++ flag

/-- Expansion of `bwrap_flag!(@rotry: flag, ro, try)`.  The four arms are
transcribed cell by cell from the `match ($bool_ro, $bool_try)` in the
macro; note the `(true, false)` arm concatenates `"--ro"` directly with
the flag name, without a hyphen, exactly as `concat!("--ro", $flag, "")`
does. -/
def flagRoTry (flag : String) (ro tryb : Bool) : String :=
  match ro, tryb with
  | true, true => "--ro-" ++ flag ++ "-try"
  | false, true => "--" ++ flag ++ "-try"
  | true, false => "--ro" ++ flag
  | false, false => "--" ++ flag

/-- Expansion of `vec_append!(@perm: &mut v, permission)`: pushes
`--perm` and the octal rendering when the permission is set. -/
def permTokens : Option Nat → List String
  | some p => ["--perm", octalStr p]
  | none => []

/-- Expansion of `vec_append!(@size: &mut v, size)`: pushes `--size` and
the decimal rendering when the size is set. -/
def sizeTokens : Option Nat → List String
  | some s => ["--size", toString s]
  | none => []

/-- `kincir_bwrap::FsOptions`.  File descriptors (`OwnedFd` in the source)
are embedded as their raw value (`Int`, matching `RawFd = c_int`), since
`to_option` only ever formats `as_raw_fd()` in decimal. -/
inductive FsOptions where
  | Bind (read_only : Bool) (source destination : String)
      (permission : Option Nat) (try_ : Bool)
  | DevBind (source destination : String) (permission : Option Nat) (try_ : Bool)
  | ProcBind (source destination : String) (permission : Option Nat) (try_ : Bool)
  | Dev (destination : String) (permission : Option Nat)
  | Proc (destination : String) (permission : Option Nat)
  | MQueue (destination : String) (permission : Option Nat)
  | Dir (destination : String) (permission : Option Nat)
  | TempFs (destination : String) (permission : Option Nat) (size : Option Nat)
  | Symlink (source destination : String)
  | File (source : Int) (destination : String) (permission : Option Nat)
  | Data (source : Int) (destination : String) (permission : Option Nat)
      (read_only : Bool)
  | Chmod (destination : String) (permission : Nat)
  deriving DecidableEq, Repr

/-- `FsOptions::to_option`, arm for arm from the `match self` in
`fs_options.rs` (the `Vec::with_capacity` size hints have no observable
effect and are dropped). -/
def FsOptions.to_option : FsOptions → List String
  | .Chmod destination permission =>
      ["--chmod", octalStr permission, destination]
  | .Data source destination permission read_only =>
      permTokens permission
        ++ [flagRo "data-bind" read_only, toString source, destination]
  | .File source destination permission =>
      permTokens permission ++ [flagNone "file", toString source, destination]
  | .Symlink source destination =>
      [flagNone "symlink", source, destination]
  | .TempFs destination permission size =>
      permTokens permission ++ sizeTokens size ++ [flagNone "tmpfs", destination]
  | .Dir destination permission =>
      permTokens permission ++ [flagNone "dir", destination]
  | .MQueue destination permission =>
      permTokens permission ++ [flagNone "mqueue", destination]
  | .Bind read_only source destination permission try_ =>
      permTokens permission
        ++ [flagRoTry "bind" read_only try_, source, destination]
  | .DevBind source destination permission try_ =>
      permTokens permission ++ [flagTry "dev-bind" try_, source, destination]
  | .ProcBind source destination permission try_ =>
      permTokens permission ++ [flagTry "proc-bind" try_, source, destination]
  | .Dev destination permission =>
      permTokens permission ++ [flagNone "dev", destination]
  | .Proc destination permission =>
      permTokens permission ++ [flagNone "proc", destination]

/-! ## `kincir_bwrap/src/namespace.rs` -/

/-- `kincir_bwrap::NsFlags`, a `bitflags` set over fourteen named bits.
One `Bool` field per named flag, in source definition order (which is the
order `bitflags`' `iter()` yields set flags in — the source's `args_all`
test pins `--unshare-all` before `--share-net`, i.e. definition order, not
bit order, since `SHARE_NET` has the lower bit 8 but is defined after
`ALL`). -/
structure NsFlags where
  user : Bool := false
  user_try : Bool := false
  ipc : Bool := false
  pid : Bool := false
  net : Bool := false
  uts : Bool := false
  cgroups : Bool := false
  cgroups_try : Bool := false
  all : Bool := false
  disable_user_ns : Bool := false
  assert_disable_user_ns : Bool := false
  share_net : Bool := false
  die_with_parent : Bool := false
  new_session : Bool := false
  deriving DecidableEq, Repr

/-- First statement of `NsFlags::sanitize`: `if self.contains(ALL) {
self.remove(USER | USER_TRY | IPC | PID | NET | UTS | CGROUPS |
CGROUPS_TRY) }`. -/
def NsFlags.sanitizeAll (f : NsFlags) : NsFlags :=
  if f.all then
    { f with
      user := false, user_try := false, ipc := false, pid := false,
      net := false, uts := false, cgroups := false, cgroups_try := false }
  else f

/-- Second statement of `NsFlags::sanitize`: `if self.contains(USER) {
self.remove(USER_TRY) }`. -/
def NsFlags.sanitizeUser (f : NsFlags) : NsFlags :=
  if f.user then { f with user_try := false } else f

/-- Third statement of `NsFlags::sanitize`: `if self.contains(CGROUPS) {
self.remove(CGROUPS_TRY) }`. -/
def NsFlags.sanitizeCgroups (f : NsFlags) : NsFlags :=
  if f.cgroups then { f with cgroups_try := false } else f

/-- `NsFlags::sanitize`: drop every individual unshare flag when `ALL` is
present, then drop `USER_TRY` under `USER` and `CGROUPS_TRY` under
`CGROUPS`, in that order (the three sequential statements of the source
method). -/
def NsFlags.sanitize (f : NsFlags) : NsFlags :=
  f.sanitizeAll.sanitizeUser.sanitizeCgroups

/-- `NsFlags::to_options`: sanitize, then emit the launcher argument of
each set flag in definition order. -/
def NsFlags.to_options (f : NsFlags) : List String :=
  let f := f.sanitize
  (if f.user then ["--unshare-user"] else [])
    ++ (if f.user_try then ["--unshare-user-try"] else [])
    ++ (if f.ipc then ["--unshare-ipc"] else [])
    ++ (if f.pid then ["--unshare-pid"] else [])
    ++ (if f.net then ["--unshare-net"] else [])
    ++ (if f.uts then ["--unshare-uts"] else [])
    ++ (if f.cgroups then ["--unshare-cgroup"] else [])
    ++ (if f.cgroups_try then ["--unshare-cgroup-try"] else [])
    ++ (if f.all then ["--unshare-all"] else [])
    ++ (if f.disable_user_ns then ["--disable-userns"] else [])
    ++ (if f.assert_disable_user_ns then ["--assert-disable-userns"] else [])
    ++ (if f.share_net then ["--share-net"] else [])
    ++ (if f.die_with_parent then ["--die-with-parent"] else [])
    ++ (if f.new_session then ["--new-session"] else [])

/-- `kincir_bwrap::NsOptions`: the flag set plus optional gid, uid,
hostname and cwd (`c_int` fields as `Int`, `OsString`/`PathBuf` as
`String`). -/
structure NsOptions where
  flags : NsFlags := {}
  gid : Option Int := none
  uid : Option Int := none
  hostname : Option String := none
  cwd : Option String := none
  deriving DecidableEq, Repr

/-- The first half of `NsOptions::sanitize_flags`: force `USER` when a
gid or uid is set, force `UTS` when a hostname is set (before the flag
set's own `sanitize` runs). -/
def NsOptions.forced_flags (o : NsOptions) : NsFlags :=
  let fl := o.flags
  let fl := if o.gid.isSome then { fl with user := true } else fl
  let fl := if o.uid.isSome then { fl with user := true } else fl
  if o.hostname.isSome then { fl with uts := true } else fl

/-- `NsOptions::sanitize_flags` (the source mutates `self.flags`; here the
updated record is returned). -/
def NsOptions.sanitize_flags (o : NsOptions) : NsOptions :=
  { o with flags := o.forced_flags.sanitize }

/-- `NsOptions::to_options`: sanitize the flags, emit their tokens, then
`--gid`, `--uid`, `--hostname`, `--chdir` for whichever of the four
optional fields are present, in that order. -/
def NsOptions.to_options (o : NsOptions) : List String :=
  let o := o.sanitize_flags
  o.flags.to_options
    ++ (match o.gid with
        | some gid => ["--gid", toString gid]
        | none => [])
    ++ (match o.uid with
        | some uid => ["--uid", toString uid]
        | none => [])
    ++ (match o.hostname with
        | some hostname => ["--hostname", hostname]
        | none => [])
    ++ (match o.cwd with
        | some cwd => ["--chdir", cwd]
        | none => [])

/-! ## `kincir_bwrap/src/command.rs` and `kincir_bwrap/src/lib.rs`

`Command`'s `Stdio` fields never influence `build_args` and are omitted.
The `HashMap<OsString, OsString>` env and `HashSet<OsString>` unset-env
are embedded as association lists / lists with the map-insert and
set-insert semantics; Rust iterates them in an unspecified order, the
list order stands in for one such order (none of the verified claims
depends on which). -/

/-- `kincir_bwrap::Command` (program plus argument list). -/
structure Command where
  program : String
  args : List String := []
  deriving DecidableEq, Repr

/-- `HashMap::insert`: replace the value of an existing key, otherwise add
the entry. -/
def envInsert (m : List (String × String)) (k v : String) :
    List (String × String) :=
  if m.any (fun kv => kv.1 = k) then
    m.map (fun kv => if kv.1 = k then (k, v) else kv)
  else m ++ [(k, v)]

/-- `HashMap::remove` (value-discarding). -/
def envRemove (m : List (String × String)) (k : String) :
    List (String × String) :=
  m.filter (fun kv => kv.1 ≠ k)

/-- `HashSet::insert`. -/
def setInsert (s : List String) (k : String) : List String :=
  if k ∈ s then s else s ++ [k]

/-- `kincir_bwrap::BwrapCommand`. -/
structure BwrapCommand where
  bwrap : Option String := none
  clear_env : Bool := false
  env : List (String × String) := []
  fs_options : List FsOptions := []
  unset_env : List String := []
  ns_options : NsOptions := {}
  command : Command
  deriving DecidableEq, Repr

/-- `BwrapCommand::new` (a bare program name converts to a `Command` with
no arguments). -/
def BwrapCommand.new (cmd : String) : BwrapCommand :=
  { command := { program := cmd } }

/-- `BwrapCommand::clear_env`: `true` sets the flag and wipes both env
maps; `false` only resets the flag. -/
def BwrapCommand.clearEnv (c : BwrapCommand) (b : Bool) : BwrapCommand :=
  if b then { c with clear_env := true, env := [], unset_env := [] }
  else { c with clear_env := false }

/-- `BwrapCommand::add_env`. -/
def BwrapCommand.add_env (c : BwrapCommand) (k v : String) : BwrapCommand :=
  { c with env := envInsert c.env k v }

/-- `BwrapCommand::add_unset_env`. -/
def BwrapCommand.add_unset_env (c : BwrapCommand) (k : String) : BwrapCommand :=
  { c with unset_env := setInsert c.unset_env k }

/-- `BwrapCommand::remove_env`. -/
def BwrapCommand.remove_env (c : BwrapCommand) (k : String) : BwrapCommand :=
  { c with env := envRemove c.env k }

/-- `BwrapCommand::add_fs_options`. -/
def BwrapCommand.add_fs_options (c : BwrapCommand) (o : FsOptions) :
    BwrapCommand :=
  { c with fs_options := c.fs_options ++ [o] }

/-- `BwrapCommand::set_cwd` (delegates to `NsOptions::set_cwd`). -/
def BwrapCommand.set_cwd (c : BwrapCommand) (cwd : String) : BwrapCommand :=
  { c with ns_options := { c.ns_options with cwd := some cwd } }

/-- `BwrapCommand::unset_cwd` (delegates to `NsOptions::unset_cwd`). -/
def BwrapCommand.unset_cwd (c : BwrapCommand) : BwrapCommand :=
  { c with ns_options := { c.ns_options with cwd := none } }

/-- `BwrapCommand::arg`. -/
def BwrapCommand.arg (c : BwrapCommand) (a : String) : BwrapCommand :=
  { c with command := { c.command with args := c.command.args ++ [a] } }

/-- The part of `BwrapCommand::build_args` that precedes the `--`
separator: `--clearenv` when the flag is set, the `--setenv k v` triples,
the `--unsetenv k` pairs, the lowered fs options in insertion order, then
the namespace tokens. -/
def BwrapCommand.args_before_separator (c : BwrapCommand) : List String :=
  (if c.clear_env then ["--clearenv"] else [])
    ++ (c.env.flatMap fun kv => ["--setenv", kv.1, kv.2])
    ++ (c.unset_env.flatMap fun k => ["--unsetenv", k])
    ++ (c.fs_options.flatMap FsOptions.to_option)
    ++ c.ns_options.to_options

/-- `BwrapCommand::build_args`: the pre-separator tokens, `--`, the
program, the program's arguments. -/
def BwrapCommand.build_args (c : BwrapCommand) : List String :=
  c.args_before_separator ++ ["--"] ++ [c.command.program] ++ c.command.args

/-! ## `kincir_api/src/runner.rs`

`RunnerManifest` with `PathBuf`/`Duration` embedded as `String`/seconds.
The two validation functions take their environment interactions as
explicit oracles: `whichFn` stands for `which::which` (PATH resolution,
`none` = resolution failure) and `fsExists` for `Path::exists`. -/

/-- `kincir_api::runner::RunnerManifest` (the serde attributes only affect
parsing; defaults mirror the `#[serde(default)]` values). -/
structure RunnerManifest where
  show_trace : Bool := false
  name : String
  bin_deps : List String := []
  files_deps : List (String × String) := []
  entry : String := ""
  timeout : Nat := 10
  no_default_binary : Bool := false
  exit_status : List (Int × String) := []
  deriving DecidableEq, Repr

/-- `RunnerManifest::DEFAULT_COMMANDS`, transcribed entry for entry. -/
def RunnerManifest.DEFAULT_COMMANDS : List String :=
  ["[", "arch", "b2sum", "base32", "base64", "basename", "basenc", "bash",
   "cat", "chcon", "chgrp", "chmod", "chown", "chroot", "cksum", "comm",
   "cp", "csplit", "cut", "date", "dd", "df", "dir", "dircolors",
   "dirname", "du", "echo", "env", "expand", "expr", "factor", "false",
   "fmt", "fold", "groups", "head", "hostid", "id", "install", "join",
   "link", "ln", "logname", "ls", "md5sum", "mkdir", "mkfifo", "mknod",
   "mktemp", "mv", "nice", "nl", "nohup", "nproc", "numfmt", "od",
   "paste", "pathchk", "pinky", "pr", "printenv", "printf", "ptx", "pwd",
   "readlink", "realpath", "rm", "rmdir", "runcon", "seq", "sha1sum",
   "sha224sum", "sha256sum", "sha384sum", "sha512sum", "shred", "shuf",
   "sleep", "sort", "split", "stat", "stdbuf", "stty", "sum", "sync",
   "tac", "tail", "tee", "test", "timeout", "touch", "tr", "true",
   "truncate", "tsort", "tty", "uname", "unexpand", "uniq", "unlink",
   "uptime", "users", "vdir", "wc", "who", "whoami", "yes"]

/-- `RunnerBinaryDepError` (the `which::Error` payload carries no
information the claims use and is dropped). -/
inductive RunnerBinaryDepError where
  | Duplicate (bin : String)
  | WhichError (bin : String)
  deriving DecidableEq, Repr

/-- `RunnerFilesDepError`. -/
inductive RunnerFilesDepError where
  | Duplicates (paths : List String)
  | Missing (path : String)
  | InvalidPath (path : String)
  deriving DecidableEq, Repr

/-- First loop of `verify_bin_deps`: resolve each declared dependency via
the PATH oracle (resolution failure wins over the duplicate check, since
the source computes `which::which(bin)?` before `insert`), and fail on a
name already in the map. -/
def verifyBinDepsLoop (whichFn : String → Option String) :
    List String → List (String × String) →
    Except RunnerBinaryDepError (List (String × String))
  | [], out => .ok out
  | bin :: rest, out =>
    match whichFn bin with
    | none => .error (.WhichError bin)
    | some p =>
      if out.any (fun kv => kv.1 = bin) then .error (.Duplicate bin)
      else verifyBinDepsLoop whichFn rest (out ++ [(bin, p)])

/-- Second loop of `verify_bin_deps`: for every default command not
already in the map, resolve it and add it.  The source runs this loop
unconditionally — it never consults `no_default_binary`. -/
def verifyBinDefaultsLoop (whichFn : String → Option String) :
    List String → List (String × String) →
    Except RunnerBinaryDepError (List (String × String))
  | [], out => .ok out
  | bin :: rest, out =>
    if out.any (fun kv => kv.1 = bin) then
      verifyBinDefaultsLoop whichFn rest out
    else
      match whichFn bin with
      | none => .error (.WhichError bin)
      | some p => verifyBinDefaultsLoop whichFn rest (out ++ [(bin, p)])

/-- `RunnerManifest::verify_bin_deps`. -/
def RunnerManifest.verify_bin_deps (whichFn : String → Option String)
    (m : RunnerManifest) :
    Except RunnerBinaryDepError (List (String × String)) :=
  match verifyBinDepsLoop whichFn m.bin_deps [] with
  | .error e => .error e
  | .ok out => verifyBinDefaultsLoop whichFn RunnerManifest.DEFAULT_COMMANDS out

/-- `itertools::Itertools::duplicates` over the guest paths: every element
that occurs more than once, reported once, at its second occurrence. -/
def duplicatesAux : List String → List String → List String → List String
  | [], _, out => out.reverse
  | x :: rest, seen, out =>
    if x ∈ seen then
      if x ∈ out then duplicatesAux rest seen out
      else duplicatesAux rest seen (x :: out)
    else duplicatesAux rest (x :: seen) out

/-- `self.files_deps.values().duplicates().collect()`. -/
def duplicates (l : List String) : List String :=
  duplicatesAux l [] []

/-- Split a character list at every `/`, keeping (possibly empty)
components — the component structure `Path::components` iterates, up to
the empty/`.` components it elides, which are never `..` and so cannot
affect the check below. -/
def splitOnSlash : List Char → List (List Char)
  | [] => [[]]
  | c :: rest =>
    let r := splitOnSlash rest
    if c = '/' then [] :: r
    else
      match r with
      | [] => [[c]]
      | h :: t => (c :: h) :: t

/-- Whether a path contains a component the source rejects, i.e. a `..`
(`Component::ParentDir`).  (`Component::Prefix` is a Windows drive prefix
and never occurs when parsing Unix paths, so `..` between separators is
exactly the rejected case.) -/
def hasParentDir (p : String) : Bool :=
  (splitOnSlash p.toList).any (fun c => c = ['.', '.'])

/-- The probed host path of a files-dep entry:
`OsString::from(format!("./runners/{}/", self.name))` followed by
`OsString::push(host_path)` — plain byte-string concatenation, not a
path join. -/
def hostRealPath (name host : String) : String :=
  "./runners/" ++ name ++ "/" ++ host

/-- The per-entry loop of `verify_files_deps`, in source order: first the
existence probe at the concatenated path (`Missing` on failure), then the
`..` check on the host key, then the `..` check on the guest value
(`InvalidPath`), then insert `(host_real, guest)` into the result. -/
def verifyFilesDepsLoop (fsExists : String → Bool) (name : String) :
    List (String × String) → List (String × String) →
    Except RunnerFilesDepError (List (String × String))
  | [], out => .ok out
  | (host, guest) :: rest, out =>
    let host_real := hostRealPath name host
    if ¬ fsExists host_real then .error (.Missing host)
    else if hasParentDir host then .error (.InvalidPath host)
    else if hasParentDir guest then .error (.InvalidPath guest)
    else verifyFilesDepsLoop fsExists name rest (out ++ [(host_real, guest)])

/-- `RunnerManifest::verify_files_deps`: duplicate-guest-path check first,
then the per-entry loop. -/
def RunnerManifest.verify_files_deps (fsExists : String → Bool)
    (m : RunnerManifest) :
    Except RunnerFilesDepError (List (String × String)) :=
  let dups := duplicates (m.files_deps.map Prod.snd)
  if dups ≠ [] then .error (.Duplicates dups)
  else verifyFilesDepsLoop fsExists m.name m.files_deps []

/-- Decidable equality for `Except` results (kernel-evaluable, for the
concrete counterexamples below). -/
instance {ε α : Type} [DecidableEq ε] [DecidableEq α] :
    DecidableEq (Except ε α)
  | .ok a, .ok b =>
    if h : a = b then .isTrue (by rw [h]) else
      .isFalse (by intro hc; injection hc; contradiction)
  | .error a, .error b =>
    if h : a = b then .isTrue (by rw [h]) else
      .isFalse (by intro hc; injection hc; contradiction)
  | .ok _, .error _ => .isFalse (by intro hc; injection hc)
  | .error _, .ok _ => .isFalse (by intro hc; injection hc)

/-! ## Concrete oracles used by the theorems below -/

/-- A PATH oracle that resolves every name (to `/x/<name>`). -/
def whichSlashX : String → Option String := fun b => some ("/x/" ++ b)

/-- A filesystem oracle on which every path exists. -/
def existsAll : String → Bool := fun _ => true

/-- A filesystem oracle on which no path exists. -/
def existsNone : String → Bool := fun _ => false

/-! ## Theorems -/

/-- C1: corrected at the `(read_only, try) = (true, false)` cell.  The
`Bind` arm of `to_option` does emit optional `--perm` in octal, one flag
token chosen by the `(read_only, try)` pair, then source, then
destination — and three of the four cells carry the claimed tokens — but
the `(true, false)` cell of `bwrap_flag!(@rotry: ...)` concatenates
`"--ro"` with `"bind"` without a hyphen, so `read_only=true, try=false`
yields `--robind`, not the claimed (and documented) `--ro-bind`. -/
theorem bind_lowering_cells :
    (FsOptions.Bind true "/h" "/g" none false).to_option
        = ["--robind", "/h", "/g"] ∧
    (FsOptions.Bind true "/h" "/g" none false).to_option
        ≠ ["--ro-bind", "/h", "/g"] ∧
    (FsOptions.Bind true "/h" "/g" (some 0o755) true).to_option
        = ["--perm", "755", "--ro-bind-try", "/h", "/g"] ∧
    (FsOptions.Bind false "/h" "/g" none true).to_option
        = ["--bind-try", "/h", "/g"] ∧
    (FsOptions.Bind false "/h" "/g" none false).to_option
        = ["--bind", "/h", "/g"] := by
  refine ⟨rfl, by decide, by decide, rfl, rfl⟩

/-- C5: the `Data` arm emits optional `--perm`, a flag token, the raw fd
in decimal, then the destination — but the flag family is
`bwrap_flag!(@ro: "data-bind", ...)`, so the token is `--data-bind`
(resp. `--ro-data-bind` when `read_only`), not the claimed (and
documented) `--data` / `--ro-data`. -/
theorem data_lowering_tokens :
    (FsOptions.Data 5 "/d" none false).to_option
        = ["--data-bind", "5", "/d"] ∧
    (FsOptions.Data 5 "/d" none true).to_option
        = ["--ro-data-bind", "5", "/d"] ∧
    (FsOptions.Data 5 "/d" (some 0o644) true).to_option
        = ["--perm", "644", "--ro-data-bind", "5", "/d"] ∧
    (FsOptions.Data 5 "/d" none false).to_option ≠ ["--data", "5", "/d"] ∧
    (FsOptions.Data 5 "/d" none true).to_option ≠ ["--ro-data", "5", "/d"] := by
  refine ⟨by decide, by decide, by decide, by decide, by decide⟩

/-- C2: `verify_bin_deps` never reads `no_default_binary` — its result is
the same for both values of the field — and on a manifest with
`no_default_binary = true` and no declared `bin_deps` it still resolves
and returns the full default coreutils+bash set (here: the map contains
`bash` and has 107 entries, one per default command), instead of the
claimed empty map. -/
theorem verify_bin_deps_ignores_no_default_binary :
    (∀ (whichFn : String → Option String) (m : RunnerManifest) (b : Bool),
      RunnerManifest.verify_bin_deps whichFn { m with no_default_binary := b }
        = RunnerManifest.verify_bin_deps whichFn m) ∧
    ((RunnerManifest.verify_bin_deps whichSlashX
        { name := "demo", bin_deps := [], no_default_binary := true }).toOption.map
      (fun out => (out.any fun kv => kv.1 = "bash") && (out.length == 107)))
      = some true := by
  refine ⟨fun whichFn m b => rfl, by decide⟩

/-- C4: nothing in the source rejects a manifest whose `exit_status`
contains the key 0: both validation functions ignore the `exit_status`
field entirely, and a concrete manifest carrying `0 ↦ "successful"`
passes `verify_bin_deps` and `verify_files_deps` (the derived parser
imposes no constraint on the map's keys either). -/
theorem exit_status_zero_not_rejected :
    (∀ (whichFn : String → Option String) (fsExists : String → Bool)
        (m : RunnerManifest) (es : List (Int × String)),
      RunnerManifest.verify_bin_deps whichFn { m with exit_status := es }
          = RunnerManifest.verify_bin_deps whichFn m ∧
      RunnerManifest.verify_files_deps fsExists { m with exit_status := es }
          = RunnerManifest.verify_files_deps fsExists m) ∧
    (({ name := "demo", exit_status := [(0, "successful")] }
        : RunnerManifest).exit_status.any fun kv => kv.1 = 0) = true ∧
    (RunnerManifest.verify_bin_deps whichSlashX
        { name := "demo", exit_status := [(0, "successful")] }).isOk = true ∧
    (RunnerManifest.verify_files_deps existsAll
        { name := "demo", exit_status := [(0, "successful")] }).isOk = true := by
  refine ⟨fun whichFn fsExists m es => ⟨rfl, rfl⟩, by decide, by decide, by decide⟩

/-- Once the entry loop of `verify_files_deps` holds an entry whose host
key contains a `..` component, it cannot succeed: the entry trips either
the existence probe (`Missing`) or one of the `..` checks
(`InvalidPath`). -/
theorem verifyFilesDepsLoop_parentdir_isOk_false
    (fsExists : String → Bool) (name host guest : String)
    (hpd : hasParentDir host = true) :
    ∀ l out : List (String × String), (host, guest) ∈ l →
      (verifyFilesDepsLoop fsExists name l out).isOk = false := by
  intro l
  induction l with
  | nil => intro out hmem; simp at hmem
  | cons hd tl ih =>
    intro out hmem
    obtain ⟨h', g'⟩ := hd
    rcases List.mem_cons.mp hmem with heq | hmem'
    · injection heq with e1 e2
      subst e1
      simp only [verifyFilesDepsLoop]
      split
      · rfl
      · rfl
    · simp only [verifyFilesDepsLoop]
      split
      · rfl
      · split
        · rfl
        · split
          · rfl
          · exact ih _ hmem'

/-- C3 (amended): for every manifest with a `files_deps` host key
containing a `..` component, `verify_files_deps` always fails — but,
because the source probes existence of the concatenated host path before
running the `..` check, the error is `InvalidPath` only when that path
exists; when it does not, the error is `Missing` naming the same key (as
the single-entry case shows exactly). -/
theorem verify_files_deps_parentdir_rejected
    (fsExists : String → Bool) (m : RunnerManifest) (host guest : String)
    (hmem : (host, guest) ∈ m.files_deps) (hpd : hasParentDir host = true) :
    (RunnerManifest.verify_files_deps fsExists m).isOk = false ∧
    (m.files_deps = [(host, guest)] →
      RunnerManifest.verify_files_deps fsExists m =
        if fsExists (hostRealPath m.name host)
        then .error (.InvalidPath host)
        else .error (.Missing host)) := by
  constructor
  · simp only [RunnerManifest.verify_files_deps]
    split
    · rfl
    · exact verifyFilesDepsLoop_parentdir_isOk_false fsExists m.name host guest
        hpd _ _ hmem
  · intro hsingle
    by_cases hex : fsExists (hostRealPath m.name host) <;>
      simp [RunnerManifest.verify_files_deps, hsingle, verifyFilesDepsLoop,
        duplicates, duplicatesAux, hex, hpd]

/-- C3 counterexample: the claim as stated fails when the probed path
does not exist on disk — the manifest `files_deps: { "../etc/passwd":
"/x" }` under runner `demo`, validated against a filesystem without
`./runners/demo/../etc/passwd`, is rejected with `Missing`, not with the
claimed `InvalidPath`. -/
theorem verify_files_deps_missing_not_invalid :
    RunnerManifest.verify_files_deps existsNone
        { name := "demo", files_deps := [("../etc/passwd", "/x")] }
      = .error (.Missing "../etc/passwd") ∧
    RunnerManifest.verify_files_deps existsNone
        { name := "demo", files_deps := [("../etc/passwd", "/x")] }
      ≠ .error (.InvalidPath "../etc/passwd") := by
  refine ⟨by decide, by decide⟩

/-- C3 witness: the amended theorem applied to the spec's own scenario
(runner `demo`, entry `"../etc/passwd" ↦ "/x"`) on a filesystem where
every path exists. -/
theorem verify_files_deps_parentdir_rejected_witness :
    (RunnerManifest.verify_files_deps existsAll
        { name := "demo", files_deps := [("../etc/passwd", "/x")] }).isOk
        = false ∧
    (({ name := "demo", files_deps := [("../etc/passwd", "/x")] }
        : RunnerManifest).files_deps = [("../etc/passwd", "/x")] →
      RunnerManifest.verify_files_deps existsAll
          { name := "demo", files_deps := [("../etc/passwd", "/x")] }
        = if existsAll (hostRealPath "demo" "../etc/passwd")
          then .error (.InvalidPath "../etc/passwd")
          else .error (.Missing "../etc/passwd")) :=
  verify_files_deps_parentdir_rejected existsAll
    { name := "demo", files_deps := [("../etc/passwd", "/x")] }
    "../etc/passwd" "/x" (by decide) (by decide)

/-- The `ALL` removal step only clears other bits. -/
theorem NsFlags.sanitizeAll_all (f : NsFlags) : f.sanitizeAll.all = f.all := by
  simp only [NsFlags.sanitizeAll]
  split <;> rfl

/-- The `USER_TRY` removal step leaves the `ALL` bit alone. -/
theorem NsFlags.sanitizeUser_all (f : NsFlags) : f.sanitizeUser.all = f.all := by
  simp only [NsFlags.sanitizeUser]
  split <;> rfl

/-- The `CGROUPS_TRY` removal step leaves the `ALL` bit alone. -/
theorem NsFlags.sanitizeCgroups_all (f : NsFlags) :
    f.sanitizeCgroups.all = f.all := by
  simp only [NsFlags.sanitizeCgroups]
  split <;> rfl

/-- `sanitize` preserves the `ALL` bit. -/
theorem NsFlags.sanitize_all_eq (f : NsFlags) : (f.sanitize).all = f.all := by
  simp [NsFlags.sanitize, NsFlags.sanitizeCgroups_all, NsFlags.sanitizeUser_all,
    NsFlags.sanitizeAll_all]

/-- When `ALL` is set, `sanitize` is exactly the removal of the eight
individual unshare bits. -/
theorem NsFlags.sanitize_of_all (f : NsFlags) (h : f.all = true) :
    f.sanitize =
      { f with
        user := false, user_try := false, ipc := false, pid := false,
        net := false, uts := false, cgroups := false, cgroups_try := false } := by
  simp [NsFlags.sanitize, NsFlags.sanitizeAll, NsFlags.sanitizeUser,
    NsFlags.sanitizeCgroups, h]

/-- When `USER` is set, `sanitize` clears `USER_TRY` (either via the
`ALL` removal or via the dedicated rule). -/
theorem NsFlags.sanitize_user_clears_user_try (f : NsFlags)
    (h : f.user = true) : (f.sanitize).user_try = false := by
  by_cases hall : f.all = true
  · simp [NsFlags.sanitize_of_all f hall]
  · simp only [Bool.not_eq_true] at hall
    by_cases hc : f.cgroups = true <;>
      simp [NsFlags.sanitize, NsFlags.sanitizeAll, NsFlags.sanitizeUser,
        NsFlags.sanitizeCgroups, hall, h, hc]

/-- When `CGROUPS` is set, `sanitize` clears `CGROUPS_TRY`. -/
theorem NsFlags.sanitize_cgroups_clears_cgroups_try (f : NsFlags)
    (h : f.cgroups = true) : (f.sanitize).cgroups_try = false := by
  by_cases hall : f.all = true
  · simp [NsFlags.sanitize_of_all f hall]
  · simp only [Bool.not_eq_true] at hall
    by_cases huser : f.user = true <;>
      simp [NsFlags.sanitize, NsFlags.sanitizeAll, NsFlags.sanitizeUser,
        NsFlags.sanitizeCgroups, hall, huser, h]

/-- A gid or uid forces the `USER` bit in `sanitize_flags`. -/
theorem NsOptions.forced_flags_user (o : NsOptions)
    (h : o.uid.isSome = true ∨ o.gid.isSome = true) :
    (o.forced_flags).user = true := by
  rcases h with h | h <;>
    by_cases hg : o.gid.isSome <;> by_cases hu : o.uid.isSome <;>
      by_cases hh : o.hostname.isSome <;>
        simp_all [NsOptions.forced_flags]

/-- A hostname forces the `UTS` bit in `sanitize_flags`. -/
theorem NsOptions.forced_flags_uts (o : NsOptions)
    (h : o.hostname.isSome = true) : (o.forced_flags).uts = true := by
  by_cases hg : o.gid.isSome <;> by_cases hu : o.uid.isSome <;>
    simp [NsOptions.forced_flags, hg, hu, h]

/-- Membership in a conditional singleton segment of the token list. -/
theorem mem_if_singleton {b : Bool} {s t : String} :
    (t ∈ if b = true then [s] else []) ↔ (b = true ∧ t = s) := by
  cases b <;> simp

/-- When `ALL` is set, the flag lowering emits `--unshare-all`. -/
theorem unshare_all_mem_to_options (f : NsFlags) (h : f.all = true) :
    "--unshare-all" ∈ f.to_options := by
  simp [NsFlags.to_options, NsFlags.sanitize_of_all f h, mem_if_singleton, h]

/-- When `ALL` is set, the flag lowering emits none of the eight
individual unshare tokens. -/
theorem unshare_tokens_not_mem_of_all (f : NsFlags) (h : f.all = true) :
    ∀ t ∈ (["--unshare-user", "--unshare-user-try", "--unshare-ipc",
        "--unshare-pid", "--unshare-net", "--unshare-uts",
        "--unshare-cgroup", "--unshare-cgroup-try"] : List String),
      t ∉ f.to_options := by
  intro t ht
  fin_cases ht <;>
    simp [NsFlags.to_options, NsFlags.sanitize_of_all f h, mem_if_singleton]

/-- When `ALL` is clear, the flag lowering never emits `--unshare-all`. -/
theorem unshare_all_not_mem_of_not_all (f : NsFlags) (h : f.all = false) :
    "--unshare-all" ∉ f.to_options := by
  simp [NsFlags.to_options, mem_if_singleton, NsFlags.sanitize_all_eq, h]

/-- C6: the sanitization invariants of the namespace lowering, exactly as
the source applies them: with `ALL` set, `sanitize` clears all eight
individual unshare bits; `USER` clears `USER_TRY`; `CGROUPS` clears
`CGROUPS_TRY`; a set uid or gid forces `USER` and a set hostname forces
`UTS` (before the flag-set sanitize runs); consequently the emitted flag
tokens contain `--unshare-all` exactly when `ALL` is set and then contain
no individual `--unshare-*` token — so `--unshare-all` never coexists
with one. -/
theorem ns_sanitize_invariants :
    (∀ f : NsFlags, f.all = true →
      f.sanitize =
        { f with
          user := false, user_try := false, ipc := false, pid := false,
          net := false, uts := false, cgroups := false,
          cgroups_try := false }) ∧
    (∀ f : NsFlags, f.user = true → (f.sanitize).user_try = false) ∧
    (∀ f : NsFlags, f.cgroups = true → (f.sanitize).cgroups_try = false) ∧
    (∀ o : NsOptions, o.uid.isSome = true → (o.forced_flags).user = true) ∧
    (∀ o : NsOptions, o.gid.isSome = true → (o.forced_flags).user = true) ∧
    (∀ o : NsOptions, o.hostname.isSome = true → (o.forced_flags).uts = true) ∧
    (∀ f : NsFlags, f.all = true →
      "--unshare-all" ∈ f.to_options ∧
      ∀ t ∈ (["--unshare-user", "--unshare-user-try", "--unshare-ipc",
          "--unshare-pid", "--unshare-net", "--unshare-uts",
          "--unshare-cgroup", "--unshare-cgroup-try"] : List String),
        t ∉ f.to_options) ∧
    (∀ f : NsFlags, f.all = false → "--unshare-all" ∉ f.to_options) :=
  ⟨NsFlags.sanitize_of_all, NsFlags.sanitize_user_clears_user_try,
   NsFlags.sanitize_cgroups_clears_cgroups_try,
   fun o h => NsOptions.forced_flags_user o (Or.inl h),
   fun o h => NsOptions.forced_flags_user o (Or.inr h),
   NsOptions.forced_flags_uts,
   fun f h => ⟨unshare_all_mem_to_options f h, unshare_tokens_not_mem_of_all f h⟩,
   unshare_all_not_mem_of_not_all⟩

/-- C6 witness: the invariants applied to the source's own test vectors
(`USER | USER_TRY | SHARE_NET | ALL`, `USER | USER_TRY`,
`CGROUPS | CGROUPS_TRY`, uid/gid/hostname-carrying options). -/
theorem ns_sanitize_invariants_witness :
    ({ user := true, user_try := true, share_net := true, all := true }
        : NsFlags).sanitize = { share_net := true, all := true } ∧
    (({ user := true, user_try := true } : NsFlags).sanitize).user_try
        = false ∧
    (({ cgroups := true, cgroups_try := true } : NsFlags).sanitize).cgroups_try
        = false ∧
    (({ uid := some 1000 } : NsOptions).forced_flags).user = true ∧
    (({ gid := some 100 } : NsOptions).forced_flags).user = true ∧
    (({ hostname := some "sandbox" } : NsOptions).forced_flags).uts = true ∧
    "--unshare-all" ∈ NsFlags.to_options
        { user := true, user_try := true, share_net := true, all := true } ∧
    "--unshare-user" ∉ NsFlags.to_options
        { user := true, user_try := true, share_net := true, all := true } ∧
    "--unshare-all" ∉ NsFlags.to_options { user := true } :=
  ⟨ns_sanitize_invariants.1
      { user := true, user_try := true, share_net := true, all := true } rfl,
   ns_sanitize_invariants.2.1 { user := true, user_try := true } rfl,
   ns_sanitize_invariants.2.2.1 { cgroups := true, cgroups_try := true } rfl,
   ns_sanitize_invariants.2.2.2.1 { uid := some 1000 } rfl,
   ns_sanitize_invariants.2.2.2.2.1 { gid := some 100 } rfl,
   ns_sanitize_invariants.2.2.2.2.2.1 { hostname := some "sandbox" } rfl,
   (ns_sanitize_invariants.2.2.2.2.2.2.1
      { user := true, user_try := true, share_net := true, all := true } rfl).1,
   (ns_sanitize_invariants.2.2.2.2.2.2.1
      { user := true, user_try := true, share_net := true, all := true } rfl).2
      "--unshare-user" (by decide),
   ns_sanitize_invariants.2.2.2.2.2.2.2 { user := true } rfl⟩

/-- C7: `build_args` is exactly the `--clearenv` flag (when set), the
`--setenv` triples, the `--unsetenv` pairs, the fs-option tokens in
insertion order, the namespace tokens, one `--` separator, the program,
and the program's arguments verbatim; provided no user-supplied string in
the earlier segments, the program name, or the arguments is itself the
literal `--`, the separator occurs exactly once, at the index right
before the program. -/
theorem build_args_separator_structure (c : BwrapCommand)
    (h1 : "--" ∉ c.args_before_separator)
    (h2 : c.command.program ≠ "--")
    (h3 : "--" ∉ c.command.args) :
    c.build_args
        = (if c.clear_env then ["--clearenv"] else [])
            ++ (c.env.flatMap fun kv => ["--setenv", kv.1, kv.2])
            ++ (c.unset_env.flatMap fun k => ["--unsetenv", k])
            ++ (c.fs_options.flatMap FsOptions.to_option)
            ++ c.ns_options.to_options
            ++ (["--"] ++ [c.command.program] ++ c.command.args) ∧
    c.build_args.count "--" = 1 ∧
    c.build_args[c.args_before_separator.length]? = some "--" ∧
    c.build_args[c.args_before_separator.length + 1]?
        = some c.command.program := by
  refine ⟨?_, ?_, ?_, ?_⟩
  · simp [BwrapCommand.build_args, BwrapCommand.args_before_separator,
      List.append_assoc]
  · have hp : (c.command.program == "--") = false := by
      simpa using h2
    simp [BwrapCommand.build_args, List.count_append, List.count_cons,
      List.count_eq_zero.mpr h1, List.count_eq_zero.mpr h3, hp]
  · rw [BwrapCommand.build_args, List.append_assoc, List.append_assoc,
      List.getElem?_append_right (Nat.le_refl _)]
    simp
  · rw [BwrapCommand.build_args, List.append_assoc, List.append_assoc,
      List.getElem?_append_right (Nat.le_add_right _ _)]
    simp

/-- A sample builder state exercising every pre-separator segment. -/
def exampleCmd : BwrapCommand :=
  ((((BwrapCommand.new "echo").clearEnv true).add_env "X" "b").add_unset_env
      "P").add_fs_options (FsOptions.Bind false "/h" "/g" none false)

/-- C7 witness: the separator-structure theorem applied to a concrete
builder with env, unset-env and a bind. -/
theorem build_args_separator_structure_witness :
    exampleCmd.build_args
        = (if exampleCmd.clear_env then ["--clearenv"] else [])
            ++ (exampleCmd.env.flatMap fun kv => ["--setenv", kv.1, kv.2])
            ++ (exampleCmd.unset_env.flatMap fun k => ["--unsetenv", k])
            ++ (exampleCmd.fs_options.flatMap FsOptions.to_option)
            ++ exampleCmd.ns_options.to_options
            ++ (["--"] ++ [exampleCmd.command.program]
                  ++ exampleCmd.command.args) ∧
    exampleCmd.build_args.count "--" = 1 ∧
    exampleCmd.build_args[exampleCmd.args_before_separator.length]?
        = some "--" ∧
    exampleCmd.build_args[exampleCmd.args_before_separator.length + 1]?
        = some exampleCmd.command.program :=
  build_args_separator_structure exampleCmd (by decide) (by decide) (by decide)

/-- C9: `clear_env(true)` wipes every previously added env and unset-env
entry and sets the `--clearenv` flag, while `clear_env(false)` only
resets the flag and keeps the entries; entries added after a
`clear_env(true)` survive into the built argv, which then starts with
`--clearenv` followed by exactly the later-added `--setenv`/`--unsetenv`
entries. -/
theorem clear_env_wipes_prior_entries (c : BwrapCommand) (k v u : String) :
    (c.clearEnv true).env = [] ∧
    (c.clearEnv true).unset_env = [] ∧
    (c.clearEnv true).clear_env = true ∧
    (c.clearEnv false).env = c.env ∧
    (c.clearEnv false).unset_env = c.unset_env ∧
    (((c.clearEnv true).add_env k v).add_unset_env u).build_args
        = ["--clearenv", "--setenv", k, v, "--unsetenv", u]
            ++ (c.fs_options.flatMap FsOptions.to_option)
            ++ c.ns_options.to_options
            ++ (["--"] ++ [c.command.program] ++ c.command.args) := by
  refine ⟨rfl, rfl, rfl, rfl, rfl, ?_⟩
  simp [BwrapCommand.build_args, BwrapCommand.args_before_separator,
    BwrapCommand.clearEnv, BwrapCommand.add_env, BwrapCommand.add_unset_env,
    envInsert, setInsert, List.append_assoc]

/-- The keys of the association list after a map-insert: unchanged when
the key was already bound, extended by the key otherwise. -/
theorem envInsert_keys (e : List (String × String)) (k v : String) :
    (envInsert e k v).map Prod.fst =
      if (e.any fun kv => kv.1 = k) = true then e.map Prod.fst
      else e.map Prod.fst ++ [k] := by
  simp only [envInsert]
  split
  · rw [List.map_map]
    refine List.map_congr_left fun kv _ => ?_
    by_cases hc : kv.1 = k <;> simp [hc]
  · simp

/-- The map-insert on an association list with duplicate-free keys keeps
the keys duplicate-free and leaves exactly one entry — the new one — at
the inserted key. -/
theorem envInsert_nodup_and_filter (k v : String) :
    ∀ e : List (String × String), (e.map Prod.fst).Nodup →
      ((envInsert e k v).map Prod.fst).Nodup ∧
      (envInsert e k v).filter (fun kv => kv.1 = k) = [(k, v)] := by
  intro e
  induction e with
  | nil => intro _; exact ⟨by simp [envInsert], by simp [envInsert]⟩
  | cons hd tl ih =>
    intro hnd
    obtain ⟨h', v'⟩ := hd
    rw [List.map_cons, List.nodup_cons] at hnd
    obtain ⟨hknotin, hndtl⟩ := hnd
    by_cases hk : h' = k
    · subst hk
      have htl_nok : ∀ kv ∈ tl, ¬(kv.1 = h') := by
        intro kv hmem hc
        exact hknotin (List.mem_map.mpr ⟨kv, hmem, hc⟩)
      have hrepl : tl.map (fun kv => if kv.1 = h' then (h', v) else kv) = tl := by
        conv_rhs => rw [← List.map_id tl]
        refine List.map_congr_left fun kv hmem => ?_
        simp [htl_nok kv hmem]
      have hres : envInsert ((h', v') :: tl) h' v = (h', v) :: tl := by
        simp only [envInsert, List.any_cons]
        rw [if_pos (by simp)]
        simp only [List.map_cons, hrepl]
        simp
      rw [hres]
      have hfiltl : tl.filter (fun kv => decide (kv.1 = h')) = [] := by
        rw [List.filter_eq_nil_iff]
        intro kv hmem
        simp [htl_nok kv hmem]
      refine ⟨?_, ?_⟩
      · rw [List.map_cons, List.nodup_cons]
        exact ⟨hknotin, hndtl⟩
      · rw [List.filter_cons]
        simp [hfiltl]
    · have hres :
          envInsert ((h', v') :: tl) k v = (h', v') :: envInsert tl k v := by
        simp only [envInsert, List.any_cons]
        by_cases hB : (tl.any fun kv => kv.1 = k) = true
        · rw [if_pos (by simp [hB]), if_pos hB]
          simp [hk]
        · rw [if_neg (by simp [hB, hk]), if_neg hB]
          simp
      obtain ⟨ndtl, filtl⟩ := ih hndtl
      rw [hres]
      refine ⟨?_, ?_⟩
      · rw [List.map_cons, List.nodup_cons]
        refine ⟨?_, ndtl⟩
        rw [envInsert_keys]
        split
        · exact hknotin
        · intro hx
          rcases List.mem_append.mp hx with hx | hx
          · exact hknotin hx
          · exact hk (List.mem_singleton.mp hx)
      · rw [List.filter_cons]
        simp [hk, filtl]

/-- Every env entry contributes its `--setenv` triple as an infix of the
env segment of the argv. -/
theorem setenv_triple_infix (l : List (String × String))
    (kv : String × String) (h : kv ∈ l) :
    List.IsInfix ["--setenv", kv.1, kv.2]
      (l.flatMap fun x => ["--setenv", x.1, x.2]) := by
  induction l with
  | nil => simp at h
  | cons hd tl ih =>
    rcases List.mem_cons.mp h with heq | h'
    · subst heq
      exact ⟨[], tl.flatMap fun x => ["--setenv", x.1, x.2], by simp⟩
    · obtain ⟨s, t, hst⟩ := ih h'
      exact ⟨["--setenv", hd.1, hd.2] ++ s, t, by simp [← hst, List.append_assoc]⟩

/-- An env entry's `--setenv` triple is an infix of the whole built
argv. -/
theorem setenv_triple_infix_build_args (c : BwrapCommand)
    (kv : String × String) (h : kv ∈ c.env) :
    List.IsInfix ["--setenv", kv.1, kv.2] c.build_args := by
  obtain ⟨s, t, hst⟩ := setenv_triple_infix c.env kv h
  refine ⟨(if c.clear_env then ["--clearenv"] else []) ++ s,
    t ++ ((c.unset_env.flatMap fun k => ["--unsetenv", k])
      ++ (c.fs_options.flatMap FsOptions.to_option)
      ++ c.ns_options.to_options
      ++ ["--"] ++ [c.command.program] ++ c.command.args), ?_⟩
  simp only [BwrapCommand.build_args, BwrapCommand.args_before_separator]
  rw [← hst]
  simp [List.append_assoc]

/-- C8: duplicate env keys follow last-write-wins.  Starting from any
builder state whose env keys are duplicate-free (an invariant of the
`HashMap`), after `add_env k v1` then `add_env k v2` the env map holds
exactly one entry for `k`, carrying `v2`; the entry `(k, v1)` is gone,
and the built argv carries the `--setenv k v2` triple. -/
theorem add_env_last_write_wins (c : BwrapCommand) (k v1 v2 : String)
    (hnodup : (c.env.map Prod.fst).Nodup) (hne : v1 ≠ v2) :
    (((c.add_env k v1).add_env k v2).env.filter fun kv => kv.1 = k)
        = [(k, v2)] ∧
    (k, v1) ∉ ((c.add_env k v1).add_env k v2).env ∧
    List.IsInfix ["--setenv", k, v2]
      ((c.add_env k v1).add_env k v2).build_args := by
  obtain ⟨nd1, _⟩ := envInsert_nodup_and_filter k v1 c.env hnodup
  obtain ⟨_, fil2⟩ := envInsert_nodup_and_filter k v2 (envInsert c.env k v1) nd1
  have henv : ((c.add_env k v1).add_env k v2).env
      = envInsert (envInsert c.env k v1) k v2 := rfl
  have hv2mem : (k, v2) ∈ ((c.add_env k v1).add_env k v2).env := by
    rw [henv]
    exact List.mem_of_mem_filter (fil2 ▸ List.mem_singleton_self _)
  refine ⟨by rw [henv]; exact fil2, ?_, ?_⟩
  · intro hmem
    have hfil : (k, v1) ∈
        (((c.add_env k v1).add_env k v2).env.filter fun kv => kv.1 = k) :=
      List.mem_filter.mpr ⟨hmem, by simp⟩
    rw [henv, fil2] at hfil
    exact hne (congrArg Prod.snd (List.mem_singleton.mp hfil))
  · exact setenv_triple_infix_build_args _ (k, v2) hv2mem

/-- C8 witness: the spec's scenario A pair of writes, `X ↦ a` then
`X ↦ b`, on a fresh builder. -/
theorem add_env_last_write_wins_witness :
    ((((BwrapCommand.new "echo").add_env "X" "a").add_env "X" "b").env.filter
        fun kv => kv.1 = "X") = [("X", "b")] ∧
    ("X", "a") ∉ (((BwrapCommand.new "echo").add_env "X" "a").add_env
        "X" "b").env ∧
    List.IsInfix ["--setenv", "X", "b"]
      (((BwrapCommand.new "echo").add_env "X" "a").add_env "X" "b").build_args :=
  add_env_last_write_wins (BwrapCommand.new "echo") "X" "a" "b"
    (by simp [BwrapCommand.new]) (by decide)

/-- The entry loop of `verify_files_deps` consults the filesystem oracle
only at the concatenated `./runners/<name>/<host>` paths of its
entries. -/
theorem verifyFilesDepsLoop_congr (f g : String → Bool) (name : String) :
    ∀ l out : List (String × String),
      (∀ e ∈ l, f (hostRealPath name e.1) = g (hostRealPath name e.1)) →
      verifyFilesDepsLoop f name l out = verifyFilesDepsLoop g name l out := by
  intro l
  induction l with
  | nil => intro out _; rfl
  | cons hd tl ih =>
    intro out h
    obtain ⟨h', g'⟩ := hd
    have hhd := h (h', g') (List.mem_cons_self _ _)
    simp only at hhd
    simp only [verifyFilesDepsLoop, hhd]
    split
    · rfl
    · split
      · rfl
      · split
        · rfl
        · exact ih _ fun e he => h e (List.mem_cons_of_mem _ he)

/-- C10: the host side of every files-dep entry is probed at the byte
concatenation `"./runners/" ++ name ++ "/" ++ host` — not a path join —
so `verify_files_deps` depends on the filesystem only through those
concatenated paths, every probed path extends the `./runners/<name>/`
prefix, and an absolute key such as `/etc/passwd` under runner `demo`
is probed at `./runners/demo//etc/passwd`, not at `/etc/passwd`. -/
theorem files_deps_probed_inside_runner_dir :
    (∀ name host : String,
      hostRealPath name host = "./runners/" ++ name ++ "/" ++ host) ∧
    (∀ (m : RunnerManifest) (f g : String → Bool),
      (∀ e ∈ m.files_deps,
        f (hostRealPath m.name e.1) = g (hostRealPath m.name e.1)) →
      RunnerManifest.verify_files_deps f m
        = RunnerManifest.verify_files_deps g m) ∧
    (∀ m : RunnerManifest, ∀ e ∈ m.files_deps,
      ∃ rest, hostRealPath m.name e.1
        = ("./runners/" ++ m.name ++ "/") ++ rest) ∧
    (hostRealPath "demo" "/etc/passwd" = "./runners/demo//etc/passwd" ∧
      hostRealPath "demo" "/etc/passwd" ≠ "/etc/passwd") := by
  refine ⟨fun name host => rfl, ?_, ?_, by decide, by decide⟩
  · intro m f g h
    simp only [RunnerManifest.verify_files_deps]
    rw [verifyFilesDepsLoop_congr f g m.name m.files_deps [] h]
  · intro m e _
    exact ⟨e.1, by simp [hostRealPath, String.append_assoc]⟩

/-- A probe oracle that only recognises the concatenated path of the
absolute-key example. -/
def probeEq : String → Bool := fun p =>
  decide (p = "./runners/demo//etc/passwd")

/-- C10 witness: the congruence and prefix parts applied to the manifest
`demo` with the absolute host key `/etc/passwd`, using the
everything-exists oracle and the single-path oracle (which agree on the
one probed path). -/
theorem files_deps_probed_inside_runner_dir_witness :
    RunnerManifest.verify_files_deps existsAll
        { name := "demo", files_deps := [("/etc/passwd", "passwd")] }
      = RunnerManifest.verify_files_deps probeEq
        { name := "demo", files_deps := [("/etc/passwd", "passwd")] } ∧
    (∃ rest, hostRealPath "demo" "/etc/passwd"
        = ("./runners/" ++ "demo" ++ "/") ++ rest) :=
  ⟨files_deps_probed_inside_runner_dir.2.1
      { name := "demo", files_deps := [("/etc/passwd", "passwd")] }
      existsAll probeEq (by decide),
   files_deps_probed_inside_runner_dir.2.2.1
      { name := "demo", files_deps := [("/etc/passwd", "passwd")] }
      ("/etc/passwd", "passwd") (by decide)⟩

end Kincir
